import Mathlib

/-!
# Verification of the tender-api core services

A shallow embedding, in Lean 4, of the core algorithmic services of the
tender-api backend (`backend/app/services/`):

* the AI-likeness detector (`ai_detector.py`: `calculate_ai_score` and the
  rule-based humanization chain),
* the response composer (`composer.py`: `ResponseComposer.compose` and its
  helpers),
* the vector matcher (`matcher.py`: `VectorMatcher.search`, `add_item`,
  `remove_item`, `_rebuild_index`, `sync_with_database`),
* the requirement extractor (`extractor.py`: `RequirementExtractor.extract`).

Modelling conventions:

* Python strings are `String` / `List Char`; `len` is the number of code
  points, which agrees with `List.length` on the `toList` view.
* Python floats are modelled as `ℚ`.  All concrete values appearing in the
  embedded code (thresholds such as `0.25`, `0.8`, penalties, percentages)
  are exactly representable, and the comparisons the code performs on them
  are reproduced exactly; floating-point rounding error is the only
  divergence and it is irrelevant at the comparison points exercised here.
* The regular expressions used by the services are embedded by specialised
  matchers (word-boundary search, substring search, a small token matcher
  for the extractor's patterns), each written against the concrete regex it
  translates.
* External collaborators (the sentence-embedding model, FAISS search
  results, the language detector `langdetect.detect`, the Mistral LLM, and
  Python's global random generator) are parameters of the embedded
  functions: an oracle function or an explicit stream of draws.
* Every function is structurally recursive, so all definitions evaluate
  inside the kernel.
-/

namespace TenderApi

/-! ## Python string primitives -/

/-- Python's whitespace class `\s` over ASCII: space, TAB, LF, VT, FF, CR. -/
def pyWS (c : Char) : Bool :=
  c = ' ' || c = Char.ofNat 9 || c = Char.ofNat 10 || c = Char.ofNat 11 ||
  c = Char.ofNat 12 || c = Char.ofNat 13

/-- Regex word character `\w` (ASCII fragment): letters, digits, underscore. -/
def wordChar (c : Char) : Bool := c.isAlphanum || c = '_'

/-- The apostrophe character (used inside several source-table strings). -/
def apC : Char := Char.ofNat 39

/-- The apostrophe as a one-character string. -/
def apS : String := String.mk [apC]

/-- The backslash character (it occurs literally in a buggy source regex). -/
def bsC : Char := Char.ofNat 92

/-- `str.lower()` on a character list (ASCII). -/
def lowerL (s : List Char) : List Char := s.map Char.toLower

/-- Strip characters satisfying `p` from both ends (Python `str.strip(chars)`). -/
def stripWhile (p : Char → Bool) (s : List Char) : List Char :=
  ((s.dropWhile p).reverse.dropWhile p).reverse

/-- Python `str.strip()` (whitespace). -/
def stripL (s : List Char) : List Char := stripWhile pyWS s

/-- Worker for `str.split()`: split on whitespace runs, dropping empties. -/
def splitWsGo : List Char → List Char → List (List Char)
  | [], acc => if acc.isEmpty then [] else [acc.reverse]
  | c :: cs, acc =>
    if pyWS c then
      if acc.isEmpty then splitWsGo cs [] else acc.reverse :: splitWsGo cs []
    else splitWsGo cs (c :: acc)

/-- Python `str.split()` with no argument. -/
def splitWsL (s : List Char) : List (List Char) := splitWsGo s []

/-- Worker for `re.split` on a character-class run such as `[.!?]+`:
separators are maximal runs of characters satisfying `p`; empty fields at the
borders are produced, exactly as `re.split` does. -/
def splitRunsGo (p : Char → Bool) : Bool → List Char → List Char → List (List Char)
  | _, acc, [] => [acc.reverse]
  | inSep, acc, c :: cs =>
    if p c then
      if inSep then splitRunsGo p true [] cs
      else acc.reverse :: splitRunsGo p true [] cs
    else splitRunsGo p false (c :: acc) cs

/-- `re.split(r'[...]+', text)` for the character class `p`. -/
def splitRunsL (p : Char → Bool) (s : List Char) : List (List Char) :=
  splitRunsGo p false [] s

/-- Case-sensitive `startsWith` on character lists (string, then pattern). -/
def startsWithL : List Char → List Char → Bool
  | _, [] => true
  | [], _ :: _ => false
  | c :: cs, p :: ps => c = p && startsWithL cs ps

/-- Case-insensitive `startsWith` (ASCII lowering on both sides, as
`re.IGNORECASE` behaves on the ASCII texts involved). -/
def startsWithCI : List Char → List Char → Bool
  | _, [] => true
  | [], _ :: _ => false
  | c :: cs, p :: ps => c.toLower = p.toLower && startsWithCI cs ps

/-- Case-sensitive substring search (`pat in s` / `re.search` on a literal). -/
def containsSub (pat : List Char) : List Char → Bool
  | [] => startsWithL [] pat
  | c :: cs => startsWithL (c :: cs) pat || containsSub pat cs

/-- Case-insensitive substring search. -/
def containsSubCI (pat : List Char) : List Char → Bool
  | [] => startsWithCI [] pat
  | c :: cs => startsWithCI (c :: cs) pat || containsSubCI pat cs

/-- Boundary test for `\b` placed before a pattern whose first character is a
word character: the previous character, if any, must not be a word character. -/
def boundaryBefore : Option Char → Bool
  | none => true
  | some c => !wordChar c

/-- Boundary test for `\b` placed after a pattern whose last character is a
word character: the next character, if any, must not be a word character. -/
def boundaryAfter : List Char → Bool
  | [] => true
  | c :: _ => !wordChar c

/-- Does `\b pat \b` match at the start of `s`, given the previous character
`prev`?  (Used only for patterns whose first and last characters are word
characters, where this is exactly the regex's behaviour.) -/
def wordAt (pat : List Char) (prev : Option Char) (s : List Char) : Bool :=
  boundaryBefore prev && startsWithL s pat && boundaryAfter (s.drop pat.length)

/-- Case-insensitive variant of `wordAt`. -/
def wordAtCI (pat : List Char) (prev : Option Char) (s : List Char) : Bool :=
  boundaryBefore prev && startsWithCI s pat && boundaryAfter (s.drop pat.length)

/-- `re.search(r'\b pat \b', s) is not None`, case-sensitive. -/
def containsWordGo (pat : List Char) : Option Char → List Char → Bool
  | _, [] => false
  | prev, c :: cs => wordAt pat prev (c :: cs) || containsWordGo pat (some c) cs

/-- `re.search(r'\b pat \b', s) is not None`, case-sensitive. -/
def containsWord (pat s : List Char) : Bool := containsWordGo pat none s

/-- Number of non-overlapping matches of `\b pat \b` in `s`
(`len(re.findall(...))`), driven by a fuel argument so that the definition is
structural; the wrapper supplies fuel `s.length`, which is always enough since
every step consumes at least one character. -/
def countWordF (pat : List Char) : Nat → Option Char → List Char → Nat
  | 0, _, _ => 0
  | _ + 1, _, [] => 0
  | f + 1, prev, c :: cs =>
    if wordAt pat prev (c :: cs) then
      1 + countWordF pat f (((c :: cs).take pat.length).getLast? ) ((c :: cs).drop pat.length)
    else countWordF pat f (some c) cs

/-- `len(re.findall(r'\b pat \b', s))` for a non-empty pattern. -/
def countWord (pat s : List Char) : Nat := countWordF pat (s.length + 1) none s

/-- Replace every (non-overlapping, leftmost) case-insensitive occurrence of
the literal `pat` by `repl` (`re.sub` with `re.IGNORECASE` on an escaped
literal).  Fuel-driven structural recursion; the wrapper supplies enough fuel. -/
def replaceAllCIF (pat repl : List Char) : Nat → List Char → List Char
  | 0, s => s
  | _ + 1, [] => []
  | f + 1, c :: cs =>
    if !pat.isEmpty && startsWithCI (c :: cs) pat then
      repl ++ replaceAllCIF pat repl f ((c :: cs).drop pat.length)
    else c :: replaceAllCIF pat repl f cs

def replaceAllCI (pat repl s : List Char) : List Char :=
  replaceAllCIF pat repl (s.length + 1) s

/-- Replace every case-sensitive occurrence of `pat` by `repl`
(Python `str.replace`). -/
def replaceAllCSF (pat repl : List Char) : Nat → List Char → List Char
  | 0, s => s
  | _ + 1, [] => []
  | f + 1, c :: cs =>
    if !pat.isEmpty && startsWithL (c :: cs) pat then
      repl ++ replaceAllCSF pat repl f ((c :: cs).drop pat.length)
    else c :: replaceAllCSF pat repl f cs

def replaceAllCS (pat repl s : List Char) : List Char :=
  replaceAllCSF pat repl (s.length + 1) s

/-- Replace only the first case-insensitive occurrence of `pat`
(`re.sub(..., count=1)`). -/
def replaceFirstCI (pat repl : List Char) : List Char → List Char
  | [] => []
  | c :: cs =>
    if !pat.isEmpty && startsWithCI (c :: cs) pat then
      repl ++ (c :: cs).drop pat.length
    else c :: replaceFirstCI pat repl cs

/-- `re.sub(r'\b pat \b', repl, s, flags=re.IGNORECASE)`: word-bounded,
case-insensitive, all non-overlapping occurrences.  Boundaries are judged in
the original string, as the regex engine does. -/
def replaceAllWordCIF (pat repl : List Char) : Nat → Option Char → List Char → List Char
  | 0, _, s => s
  | _ + 1, _, [] => []
  | f + 1, prev, c :: cs =>
    if wordAtCI pat prev (c :: cs) then
      repl ++ replaceAllWordCIF pat repl f (((c :: cs).take pat.length).getLast?)
        ((c :: cs).drop pat.length)
    else c :: replaceAllWordCIF pat repl f (some c) cs

def replaceAllWordCI (pat repl s : List Char) : List Char :=
  replaceAllWordCIF pat repl (s.length + 1) none s

/-- The compiled pattern `re.compile(r'\b' + re.escape(word) + r'\\b', re.IGNORECASE)`
from `remove_ai_markers`.  Note the `r'\\b'`: it is a literal backslash
followed by the letter `b`, not a word boundary, so a match requires the word
to be followed by the two characters `\` `b` in the text.  This embeds the
substitution that pattern performs. -/
def replaceWordBackslashBF (word repl : List Char) : Nat → Option Char → List Char → List Char
  | 0, _, s => s
  | _ + 1, _, [] => []
  | f + 1, prev, c :: cs =>
    if boundaryBefore prev && startsWithCI (c :: cs) (word ++ [bsC, 'b']) then
      repl ++ replaceWordBackslashBF word repl f
        (((c :: cs).take (word.length + 2)).getLast?) ((c :: cs).drop (word.length + 2))
    else c :: replaceWordBackslashBF word repl f (some c) cs

def replaceWordBackslashB (word repl s : List Char) : List Char :=
  replaceWordBackslashBF word repl (s.length + 1) none s

/-- Does the buggy `remove_ai_markers` word pattern match anywhere in `s`? -/
def containsWordBackslashBGo (word : List Char) : Option Char → List Char → Bool
  | _, [] => false
  | prev, c :: cs =>
    (boundaryBefore prev && startsWithCI (c :: cs) (word ++ [bsC, 'b'])) ||
      containsWordBackslashBGo word (some c) cs

def containsWordBackslashB (word s : List Char) : Bool :=
  containsWordBackslashBGo word none s

/-- `re.sub(r'\s+', ' ', s)`: collapse every whitespace run to one space. -/
def collapseWsGo : Bool → List Char → List Char
  | _, [] => []
  | inWs, c :: cs =>
    if pyWS c then
      if inWs then collapseWsGo true cs else ' ' :: collapseWsGo true cs
    else c :: collapseWsGo false cs

def collapseWs (s : List Char) : List Char := collapseWsGo false s

/-- `re.sub(r'\s+([.,!?])', r'\1', s)`: drop a whitespace run that
immediately precedes one of `. , ! ?`, keeping the punctuation mark. -/
def fixSpacePunctGo : List Char → List Char → List Char
  | wsAcc, [] => wsAcc.reverse
  | wsAcc, c :: cs =>
    if pyWS c then fixSpacePunctGo (c :: wsAcc) cs
    else if (c = '.' || c = ',' || c = '!' || c = '?') && !wsAcc.isEmpty then
      c :: fixSpacePunctGo [] cs
    else wsAcc.reverse ++ c :: fixSpacePunctGo [] cs

def fixSpacePunct (s : List Char) : List Char := fixSpacePunctGo [] s

/-- First-occurrence deduplication, preserving order — the semantics of
collecting elements into a Python `set`/`dict` in insertion order. -/
def dedupFirst : List (List Char) → List (List Char) → List (List Char)
  | _, [] => []
  | seen, x :: xs =>
    if x ∈ seen then dedupFirst seen xs else x :: dedupFirst (x :: seen) xs

/-- `String.mk ∘ List.take n ∘ String.toList`: Python slicing `s[:n]`. -/
def strTake (n : Nat) (s : String) : String := String.mk (s.toList.take n)

/-! ## AI-likeness detector: `calculate_ai_score` (`ai_detector.py`) -/

/-- The character set of `w.lower().strip('.,!?;:"\x27-')` in the lexical
diversity signal. -/
def detectorStripSet (c : Char) : Bool :=
  c = '.' || c = ',' || c = '!' || c = '?' || c = ';' || c = ':' ||
  c = '"' || c = apC || c = '-'

/-- `contraction_patterns` of `calculate_ai_score` (each searched with `\b`
boundaries, case-sensitively, against the original text). -/
def contraction_patterns : List String :=
  ["don" ++ apS ++ "t", "can" ++ apS ++ "t", "won" ++ apS ++ "t",
   "isn" ++ apS ++ "t", "aren" ++ apS ++ "t", "wasn" ++ apS ++ "t",
   "weren" ++ apS ++ "t", "hasn" ++ apS ++ "t", "haven" ++ apS ++ "t",
   "it" ++ apS ++ "s", "that" ++ apS ++ "s", "what" ++ apS ++ "s",
   "they" ++ apS ++ "re", "we" ++ apS ++ "re", "I" ++ apS ++ "m"]

/-- `formal_transitions`: (alternatives the regex admits, the tag text
`pattern[2:-2]`, penalty).  `additionall?y` admits both spellings. -/
def formal_transitions : List (List String × String × Nat) :=
  [(["furthermore"], "furthermore", 8), (["moreover"], "moreover", 8),
   (["nevertheless"], "nevertheless", 8), (["nonetheless"], "nonetheless", 8),
   (["consequently"], "consequently", 7), (["subsequently"], "subsequently", 7),
   (["additionally", "additionaly"], "additionall?y", 5), (["however"], "however", 3),
   (["therefore"], "therefore", 4), (["thus"], "thus", 5),
   (["hence"], "hence", 6), (["particularly"], "particularly", 3)]

/-- `ai_phrases`: substring patterns (no word boundaries) with penalties. -/
def ai_phrases : List (String × Nat) :=
  [("it is important to note", 15), ("it should be noted", 12),
   ("it is worth mentioning", 12), ("it is essential to", 8),
   ("this highlights the", 6), ("this underscores", 8),
   ("in today" ++ apS ++ "s world", 8), ("in the modern era", 8),
   ("plays a crucial role", 8), ("plays a vital role", 8),
   ("continues to be", 4), ("remains a key", 5)]

/-- `ai_buzzwords`: word-bounded patterns with penalties. -/
def ai_buzzwords : List (String × Nat) :=
  [("delve", 15), ("tapestry", 12), ("landscape", 5), ("seamless", 6),
   ("robust", 5), ("innovative", 4), ("holistic", 8), ("synergy", 10),
   ("paradigm", 10), ("cutting-edge", 8), ("state-of-the-art", 8),
   ("evolving", 3), ("dynamic", 3), ("strategic", 3)]

/-- Sentence segmentation of `calculate_ai_score`:
`[s.strip() for s in re.split(r'[.!?]+', text) if s.strip() and len(s.strip()) > 3]`. -/
def sentencesOf (t : List Char) : List (List Char) :=
  ((splitRunsL (fun c => c = '.' || c = '!' || c = '?') t).map stripL).filter
    (fun s => !s.isEmpty && 3 < s.length)

/-- Burstiness signal (section 1 of `calculate_ai_score`).  The source
computes `coefficient_of_variation = sqrt(variance) / avg_len` and compares
it with `0.25`, `0.40`, `0.55`; since `avg_len > 0` and `variance ≥ 0`, that
is exactly comparing `variance` with `threshold² · avg_len²`, which is how
the comparison is embedded (`ℚ` has no square root). -/
def burstinessPart (sentences : List (List Char)) : Nat × List String :=
  if 2 ≤ sentences.length then
    let lens := sentences.map (fun s => (splitWsL s).length)
    let n : ℚ := (sentences.length : ℚ)
    let avg : ℚ := ((lens.sum : ℕ) : ℚ) / n
    if 0 < avg then
      let variance : ℚ := (lens.map (fun l => ((l : ℚ) - avg) ^ 2)).sum / n
      if variance < (1 / 16 : ℚ) * avg ^ 2 then (35, ["very_uniform_sentences"])
      else if variance < (4 / 25 : ℚ) * avg ^ 2 then (20, ["uniform_sentences"])
      else if variance < (121 / 400 : ℚ) * avg ^ 2 then (10, ["slightly_uniform"])
      else (0, [])
    else (0, [])
  else (0, [])

/-- Lexical diversity signal (section 2): type-token proportion over words
longer than two characters, lowered and stripped of punctuation. -/
def lexicalPart (words : List (List Char)) (wc : Nat) : Nat × List String :=
  let uniq := dedupFirst []
    ((words.filter (fun w => 2 < w.length)).map
      (fun w => stripWhile detectorStripSet (lowerL w)))
  if 0 < wc then
    let ttr : ℚ := (uniq.length : ℚ) / (wc : ℚ)
    if ttr < (9 / 20 : ℚ) then (25, ["low_vocabulary_diversity"])
    else if ttr < (11 / 20 : ℚ) then (15, ["moderate_vocabulary_diversity"])
    else if ttr < (13 / 20 : ℚ) then (8, [])
    else (0, [])
  else (0, [])

/-- Formality signal (section 3): missing contractions on a long enough text,
plus the weighted formal-transition table, capped at 40. -/
def formalityPart (t tLower : List Char) (wc : Nat) : Nat × List String :=
  let hasContr := contraction_patterns.any (fun p => containsWord p.toList t)
  let s0 : Nat × List String :=
    if 30 < wc && !hasContr then (15, ["no_contractions"]) else (0, [])
  let s1 := formal_transitions.foldl (fun acc e =>
    if e.1.any (fun a => containsWord a.toList tLower) then
      (acc.1 + e.2.2, acc.2 ++ ["formal:" ++ e.2.1])
    else acc) s0
  (min s1.1 40, s1.2)

/-- Sentence-starter repetition signal (section 4), capped at 25.  The
per-starter counts are traversed in first-occurrence order, matching Python's
insertion-ordered dict. -/
def startersPart (sentences : List (List Char)) : Nat × List String :=
  if 3 ≤ sentences.length then
    let starters := sentences.filterMap (fun s =>
      match splitWsL s with
      | [] => none
      | w :: _ => some (lowerL w))
    let keys := dedupFirst [] starters
    let s := keys.foldl (fun acc k =>
      let cnt := starters.count k
      let rt : ℚ := (cnt : ℚ) / (starters.length : ℚ)
      if (1 / 2 : ℚ) ≤ rt then
        (acc.1 + 20, acc.2 ++ ["repetitive_starter:" ++ String.mk k])
      else if (33 / 100 : ℚ) ≤ rt && 2 ≤ cnt then
        (acc.1 + 10, acc.2 ++ ["common_starter:" ++ String.mk k])
      else acc) ((0 : Nat), ([] : List String))
    (min s.1 25, s.2)
  else (0, [])

/-- Known-AI-phrase signal (section 5), capped at 35. -/
def phrasesPart (tLower : List Char) : Nat × List String :=
  let s := ai_phrases.foldl (fun acc e =>
    if containsSub e.1.toList tLower then
      (acc.1 + e.2, acc.2 ++ ["ai_phrase:" ++ strTake 20 e.1])
    else acc) ((0 : Nat), ([] : List String))
  (min s.1 35, s.2)

/-- Buzzword signal (section 6), each word counted at most twice, capped at 30. -/
def buzzwordsPart (tLower : List Char) : Nat × List String :=
  let s := ai_buzzwords.foldl (fun acc e =>
    let cnt := countWord e.1.toList tLower
    if 0 < cnt then (acc.1 + e.2 * min cnt 2, acc.2 ++ ["buzzword:" ++ e.1])
    else acc) ((0 : Nat), ([] : List String))
  (min s.1 30, s.2)

/-- Python `round(x, 2)`.  Python rounds half to even; no value reaching this
point in the embedded code sits on a half-cent tie (they are natural numbers
scaled by 0.8, 0.9 or 1), so round-half-up is an exact model here. -/
def round2 (x : ℚ) : ℚ := ((round (x * 100) : ℤ) : ℚ) / 100

/-- `calculate_ai_score` (`ai_detector.py`): the multi-signal AI-likeness
score and the list of detected-signal tags, in the order the source appends
them. -/
def calculate_ai_score (text : String) : ℚ × List String :=
  let t := text.toList
  let tLower := lowerL t
  let words := splitWsL t
  let wc := words.length
  if wc < 5 then (0, ["text_too_short"])
  else
    let sentences := sentencesOf t
    let b := burstinessPart sentences
    let lx := lexicalPart words wc
    let fm := formalityPart t tLower wc
    let st := startersPart sentences
    let ph := phrasesPart tLower
    let bz := buzzwordsPart tLower
    let totalRaw : Nat := b.1 + lx.1 + fm.1 + st.1 + ph.1 + bz.1
    let pre : ℚ :=
      if wc < 50 then min ((totalRaw : ℚ) * (4 / 5)) 100
      else if wc < 100 then min ((totalRaw : ℚ) * (9 / 10)) 100
      else min (totalRaw : ℚ) 100
    (round2 pre, b.2 ++ lx.2 ++ fm.2 ++ st.2 ++ ph.2 ++ bz.2)

/-! ## Vector matcher (`matcher.py`)

The sentence-embedding model and FAISS are external collaborators: the model
is a parameter `encode : String → List ℚ` together with the normalisation
`normv : List ℚ → List ℚ` (the same L2 normalisation is applied by
`np.linalg.norm` in `add_item` and `faiss.normalize_L2` in `_rebuild_index`),
and a FAISS `index.search` call is a parameter `hits : List (ℚ × Int)` of
(score, index) pairs in the order FAISS returns them. -/

/-- A knowledge-base item as stored in `kb_items`: the dict
`{'id': ..., 'content': ..., **metadata}`, whose only metadata key relevant
to the core is `tenant_id`. -/
structure KBItem where
  id : String
  content : String
  tenant_id : Option String
deriving DecidableEq, Repr

/-- `MatchResult` dataclass of `matcher.py`. -/
structure MatchResult where
  kb_item_id : String
  content : String
  score : ℚ
  rank : Nat
deriving DecidableEq, Repr

/-- Python truthiness of an optional string (`None` and `""` are falsy). -/
def truthyS : Option String → Bool
  | none => false
  | some s => !s.isEmpty

/-- The tenant-isolation guard of `search` (matcher.py line 160):
`tenant_id and kb_item.get('tenant_id') and kb_item.get('tenant_id') != tenant_id`. -/
def tenantSkip (qt it : Option String) : Bool :=
  truthyS qt && truthyS it && !(it == qt)

/-- The result-collection loop of `search` (matcher.py lines 153-171):
skip invalid indices, scores below `min_score` and tenant-filtered items;
append with rank `len(results) + 1`; stop once `top_k` results are kept. -/
def searchLoop (kb : List KBItem) (minScore : ℚ) (qt : Option String) (topK : Nat) :
    List (ℚ × Int) → List MatchResult → List MatchResult
  | [], acc => acc
  | (score, idx) :: rest, acc =>
    if idx < 0 || (kb.length : Int) ≤ idx || score < minScore then
      searchLoop kb minScore qt topK rest acc
    else
      let item := kb.getD idx.toNat (KBItem.mk "" "" none)
      if tenantSkip qt item.tenant_id then searchLoop kb minScore qt topK rest acc
      else
        let acc' := acc ++ [MatchResult.mk item.id item.content score (acc.length + 1)]
        if topK ≤ acc'.length then acc'
        else searchLoop kb minScore qt topK rest acc'

/-- `search_k = min(top_k * 10 if tenant_id else top_k, self.index.ntotal)`. -/
def searchK (topK : Nat) (qt : Option String) (ntotal : Nat) : Nat :=
  min (if truthyS qt then topK * 10 else topK) ntotal

/-- `VectorMatcher.search`: `hits` are the (score, index) pairs returned by
the FAISS index for the embedded query (at most `searchK` of them, since the
index is asked for exactly `search_k` neighbours). -/
def search (kb : List KBItem) (ntotal : Nat) (hits : List (ℚ × Int))
    (topK : Nat) (minScore : ℚ) (qt : Option String) : List MatchResult :=
  if ntotal = 0 then [] else searchLoop kb minScore qt topK hits []

/-- Matcher state: the dense index (`self.index`, a list of vectors), the
item list (`self.kb_items`) and the id-to-position dict (`self.id_to_index`). -/
structure MatcherState where
  index : List (List ℚ)
  kb_items : List KBItem
  id_to_index : List (String × Nat)
deriving Repr

/-- Python dict assignment `d[k] = v` on an insertion-ordered assoc list. -/
def dictInsert (k : String) (v : Nat) : List (String × Nat) → List (String × Nat)
  | [] => [(k, v)]
  | (k', v') :: rest =>
    if k' = k then (k, v) :: rest else (k', v') :: dictInsert k v rest

/-- `_create_empty_index`: resets the index, the item list and the dict. -/
def create_empty_index (s : MatcherState) : MatcherState :=
  { s with index := [], kb_items := [], id_to_index := [] }

/-- `add_item`: embed, normalise, append to the index and the item list,
record the position. -/
def add_item (encode : String → List ℚ) (normv : List ℚ → List ℚ)
    (s : MatcherState) (item_id content : String) (tenant : Option String) :
    MatcherState :=
  { index := s.index ++ [normv (encode content)],
    kb_items := s.kb_items ++ [KBItem.mk item_id content tenant],
    id_to_index := dictInsert item_id
      ((s.kb_items ++ [KBItem.mk item_id content tenant]).length - 1) s.id_to_index }

/-- `_rebuild_index`.  The source first calls `_create_empty_index()`, which
also clears `self.kb_items`; the following `if not self.kb_items` guard is
therefore always taken and the re-embedding code below it is unreachable.  It
is embedded nonetheless, guard and all. -/
def rebuild_index (encode : String → List ℚ) (normv : List ℚ → List ℚ)
    (s : MatcherState) : MatcherState :=
  let s1 := create_empty_index s
  if s1.kb_items.isEmpty then s1
  else
    { index := s1.kb_items.map (fun it => normv (encode it.content)),
      kb_items := s1.kb_items,
      id_to_index := (s1.kb_items.enum.map (fun p => (p.2.id, p.1))) }

/-- `remove_item`: no-op for unknown ids, otherwise filter the item list and
rebuild. -/
def remove_item (encode : String → List ℚ) (normv : List ℚ → List ℚ)
    (s : MatcherState) (item_id : String) : MatcherState :=
  if (s.id_to_index.lookup item_id).isSome then
    rebuild_index encode normv
      { s with kb_items := s.kb_items.filter (fun it => it.id ≠ item_id) }
  else s

/-- `sync_with_database`: replace the item list, then rebuild. -/
def sync_with_database (encode : String → List ℚ) (normv : List ℚ → List ℚ)
    (s : MatcherState) (items : List KBItem) : MatcherState :=
  rebuild_index encode normv { s with kb_items := items }

/-- The index-alignment invariant of the matcher: the dense index holds, in
order, exactly the normalised embeddings of the item list's contents. -/
def aligned (encode : String → List ℚ) (normv : List ℚ → List ℚ)
    (s : MatcherState) : Prop :=
  s.index = s.kb_items.map (fun it => normv (encode it.content))

/-! ## Humanization chain (`ai_detector.py`)

Python's global random generator is modelled as an explicit stream: `rvals`
enumerates the successive `random.random()` draws and `cvals` the successive
`random.choice` picks (as indices), each with a cursor.  The source consumes
draws lazily (short-circuit `and`), which the embedding reproduces. -/

structure Rng where
  rvals : Nat → ℚ
  cvals : Nat → Nat
  ri : Nat
  ci : Nat

/-- One `random.random()` draw. -/
def Rng.rand (g : Rng) : ℚ × Rng := (g.rvals g.ri, { g with ri := g.ri + 1 })

/-- One `random.choice` draw from a list of length `n`, as an index. -/
def Rng.pick (g : Rng) (n : Nat) : Nat × Rng := (g.cvals g.ci % n, { g with ci := g.ci + 1 })

/-- `SYNONYMS` table (`ai_detector.py` lines 20-73), in source order. -/
def SYNONYMS : List (String × List String) :=
  [("use", ["employ", "apply", "adopt", "make use of"]),
   ("utilize", ["use", "employ", "apply", "harness"]),
   ("leverage", ["use", "employ", "capitalize on", "take advantage of"]),
   ("implement", ["execute", "carry out", "put into practice", "deploy"]),
   ("facilitate", ["enable", "help", "assist", "support"]),
   ("enhance", ["improve", "boost", "strengthen", "elevate"]),
   ("optimize", ["improve", "refine", "fine-tune", "streamline"]),
   ("achieve", ["accomplish", "attain", "reach", "realize"]),
   ("ensure", ["guarantee", "make sure", "confirm", "secure"]),
   ("provide", ["offer", "supply", "deliver", "give"]),
   ("enable", ["allow", "permit", "let", "make possible"]),
   ("demonstrate", ["show", "display", "illustrate", "prove"]),
   ("establish", ["set up", "create", "found", "build"]),
   ("maintain", ["keep", "preserve", "sustain", "uphold"]),
   ("require", ["need", "demand", "call for"]),
   ("develop", ["create", "build", "design", "craft"]),
   ("consider", ["think about", "examine", "look at", "review"]),
   ("evaluate", ["assess", "analyze", "examine", "review"]),
   ("indicate", ["show", "suggest", "point to", "reveal"]),
   ("address", ["tackle", "handle", "deal with", "resolve"]),
   ("comprehensive", ["complete", "thorough", "full", "extensive"]),
   ("robust", ["strong", "solid", "sturdy", "reliable"]),
   ("innovative", ["new", "novel", "creative", "original"]),
   ("significant", ["major", "important", "notable", "considerable"]),
   ("essential", ["vital", "crucial", "key", "necessary"]),
   ("effective", ["successful", "productive", "efficient"]),
   ("efficient", ["effective", "productive", "streamlined"]),
   ("various", ["different", "diverse", "several", "multiple"]),
   ("complex", ["complicated", "intricate", "sophisticated"]),
   ("critical", ["crucial", "vital", "key", "important"]),
   ("substantial", ["significant", "considerable", "major"]),
   ("pivotal", ["key", "crucial", "central", "vital"]),
   ("paramount", ["supreme", "top", "chief", "primary"]),
   ("seamless", ["smooth", "effortless", "fluid"]),
   ("strategic", ["planned", "calculated", "deliberate"]),
   ("dynamic", ["active", "changing", "fluid", "energetic"]),
   ("evolving", ["developing", "growing", "changing"]),
   ("significantly", ["greatly", "considerably", "substantially"]),
   ("effectively", ["successfully", "well", "efficiently"]),
   ("subsequently", ["later", "afterward", "then", "next"]),
   ("consequently", ["as a result", "therefore", "thus"]),
   ("additionally", ["also", "plus", "besides", "as well"]),
   ("furthermore", ["also", "in addition", "plus"]),
   ("however", ["but", "yet", "still", "though"]),
   ("therefore", ["so", "thus", "hence", "as a result"]),
   ("moreover", ["also", "besides", "in addition", "plus"]),
   ("particularly", ["especially", "specifically", "notably"])]

/-- `PHRASE_PARAPHRASES` table, in source order. -/
def PHRASE_PARAPHRASES : List (String × List String) :=
  [("it is important to note that", ["notably", "", "keep in mind that"]),
   ("it should be noted that", ["note that", "importantly", ""]),
   ("in order to", ["to", "so as to", "for"]),
   ("due to the fact that", ["because", "since", "as"]),
   ("at this point in time", ["now", "currently", "at present"]),
   ("in the event that", ["if", "should", "in case"]),
   ("for the purpose of", ["to", "for"]),
   ("with regard to", ["about", "regarding", "concerning"]),
   ("in terms of", ["regarding", "concerning", "for"]),
   ("a large number of", ["many", "numerous", "lots of"]),
   ("a significant amount of", ["much", "considerable"]),
   ("on the other hand", ["however", "but", "conversely"]),
   ("as a result of", ["because of", "due to", "from"]),
   ("in light of", ["given", "considering", "because of"]),
   ("with respect to", ["regarding", "about", "concerning"]),
   ("in accordance with", ["following", "per", "according to"]),
   ("prior to", ["before", "ahead of"]),
   ("subsequent to", ["after", "following"]),
   ("the fact that", ["that", "how"]),
   ("continues to be", ["remains", "stays", "is still"]),
   ("plays a crucial role", ["is key", "matters greatly", "is vital"]),
   ("plays a vital role", ["is essential", "is key"]),
   ("plays an important role", ["matters", "is significant"])]

/-- The 18 contraction substitutions of `add_contractions`, in source order. -/
def contractionSubs : List (String × String) :=
  [("do not", "don" ++ apS ++ "t"), ("does not", "doesn" ++ apS ++ "t"),
   ("cannot", "can" ++ apS ++ "t"), ("will not", "won" ++ apS ++ "t"),
   ("should not", "shouldn" ++ apS ++ "t"), ("would not", "wouldn" ++ apS ++ "t"),
   ("could not", "couldn" ++ apS ++ "t"), ("is not", "isn" ++ apS ++ "t"),
   ("are not", "aren" ++ apS ++ "t"), ("was not", "wasn" ++ apS ++ "t"),
   ("were not", "weren" ++ apS ++ "t"), ("has not", "hasn" ++ apS ++ "t"),
   ("have not", "haven" ++ apS ++ "t"), ("it is", "it" ++ apS ++ "s"),
   ("that is", "that" ++ apS ++ "s"), ("there is", "there" ++ apS ++ "s"),
   ("they are", "they" ++ apS ++ "re"), ("we are", "we" ++ apS ++ "re")]

/-- `ai_word_replacements` of `remove_ai_markers`, in source order. -/
def ai_word_replacements : List (String × String) :=
  [("delve", "explore"), ("tapestry", "mix"), ("realm", "area"),
   ("landscape", "field"), ("journey", "process"), ("unlock", "discover"),
   ("empower", "enable"), ("seamless", "smooth"), ("robust", "strong"),
   ("holistic", "complete"), ("synergy", "cooperation"), ("paradigm", "approach"),
   ("innovative", "new"), ("cutting-edge", "modern"), ("state-of-the-art", "latest"),
   ("groundbreaking", "major"), ("revolutionary", "significant"),
   ("unprecedented", "unique"), ("dynamic", "active"), ("evolving", "developing"),
   ("strategic", "planned"), ("leverage", "use"), ("utilize", "use"),
   ("comprehensive", "complete"), ("pivotal", "key"), ("paramount", "vital"),
   ("facilitate", "help"), ("noteworthy", "important"), ("fortify", "strengthen"),
   ("fostering", "encouraging"), ("bolster", "support"), ("underscore", "show"),
   ("multifaceted", "varied"), ("vibrant", "lively"), ("ongoing", "current")]

/-- `ai_phrase_replacements` of `remove_ai_markers`, in source order. -/
def ai_phrase_replacements : List (String × String) :=
  [("in essence", ""), ("at its core", ""),
   ("plays a crucial role", "is important"), ("plays a vital role", "matters"),
   ("it" ++ apS ++ "s worth noting", ""), ("what" ++ apS ++ "s more", "also"),
   ("in today" ++ apS ++ "s world", "today"), ("in the modern era", "now"),
   ("further reinforced", "strengthened")]

/-- The strip set `'.,!?;:'` of `apply_synonym_replacement`. -/
def synStripSet (c : Char) : Bool :=
  c = '.' || c = ',' || c = '!' || c = '?' || c = ';' || c = ':'

/-- Python `str.capitalize()`: first character uppercased, rest lowered. -/
def capitalizeL : List Char → List Char
  | [] => []
  | c :: cs => c.toUpper :: lowerL cs

/-- The word loop of `apply_synonym_replacement`.  A `random.random()` draw is
consumed only when the lowered, punctuation-stripped word is a `SYNONYMS` key
(Python's short-circuit `and`); a `random.choice` draw only when the
replacement actually happens. -/
def synonymGo (intensity : ℚ) : List (List Char) → Rng → (List (List Char) × Nat) × Rng
  | [], g => (([], 0), g)
  | w :: ws, g =>
    let wl := stripWhile synStripSet (lowerL w)
    match SYNONYMS.lookup (String.mk wl) with
    | some syns =>
      let (r, g1) := g.rand
      if r < intensity then
        let (i, g2) := g1.pick syns.length
        let repl0 := (syns.getD i "").toList
        let repl := if (w.headD ' ').isUpper then capitalizeL repl0 else repl0
        let trailing := (w.reverse.takeWhile synStripSet).reverse
        let ((rest, n), g3) := synonymGo intensity ws g2
        (((repl ++ trailing) :: rest, n + 1), g3)
      else
        let ((rest, n), g2) := synonymGo intensity ws g1
        ((w :: rest, n), g2)
    | none =>
      let ((rest, n), g1) := synonymGo intensity ws g
      ((w :: rest, n), g1)

/-- `apply_synonym_replacement(text, intensity)`. -/
def apply_synonym_replacement (text : List Char) (intensity : ℚ) (g : Rng) :
    (List Char × Nat) × Rng :=
  let ((ws, n), g1) := synonymGo intensity (splitWsL text) g
  ((List.intercalate [' '] ws, n), g1)

/-- `apply_phrase_paraphrasing(text)`: for each table phrase present
(case-insensitively), pick one alternative and replace the first occurrence. -/
def apply_phrase_paraphrasing (text : List Char) (g : Rng) : (List Char × Nat) × Rng :=
  PHRASE_PARAPHRASES.foldl (fun (st : (List Char × Nat) × Rng) e =>
    if containsSubCI e.1.toList st.1.1 then
      let (i, g1) := st.2.pick e.2.length
      ((replaceFirstCI e.1.toList ((e.2.getD i "").toList) st.1.1, st.1.2 + 1), g1)
    else st) ((text, 0), g)

/-- `add_contractions(text)`: each substitution is attempted when the draw
exceeds 0.3; the counter increments when the text actually changed. -/
def add_contractions (text : List Char) (g : Rng) : (List Char × Nat) × Rng :=
  contractionSubs.foldl (fun (st : (List Char × Nat) × Rng) e =>
    let (r, g1) := st.2.rand
    if (3 / 10 : ℚ) < r then
      let res := replaceAllWordCI e.1.toList e.2.toList st.1.1
      ((res, if res ≠ st.1.1 then st.1.2 + 1 else st.1.2), g1)
    else ((st.1.1, st.1.2), g1)) ((text, 0), g)

/-- `remove_ai_markers(text)`: the buzzword pass (whose compiled patterns
require a literal `\b` after the word — see `replaceWordBackslashB`), the
phrase pass, and the whitespace cleanup. -/
def remove_ai_markers (text : List Char) : List Char × Nat :=
  let s1 := ai_word_replacements.foldl (fun (st : List Char × Nat) e =>
    if containsWordBackslashB e.1.toList st.1 then
      (replaceWordBackslashB e.1.toList e.2.toList st.1, st.2 + 1)
    else st) (text, 0)
  let s2 := ai_phrase_replacements.foldl (fun (st : List Char × Nat) e =>
    if containsSubCI e.1.toList st.1 then
      (replaceAllCI e.1.toList e.2.toList st.1, st.2 + 1)
    else st) s1
  (fixSpacePunct (stripL (collapseWs s2.1)), s2.2)

/-- `intensity_map.get(intensity, 0.35)` of `humanize_text`. -/
def intensity_map (intensity : String) : ℚ :=
  if intensity = "light" then 1 / 5
  else if intensity = "balanced" then 7 / 20
  else if intensity = "aggressive" then 1 / 2
  else 7 / 20

/-- `humanize_text(text, intensity)`.  `detectLang` models
`langdetect.detect` and `mlOracle` the Mistral call of the non-English branch
(`none` = request failed, in which case the source returns the text unchanged
with tag `fallback_failed`; on success the source reports the fixed estimate
15.0 as the new score). -/
def humanize_text (detectLang : String → String) (mlOracle : String → Option String)
    (text : String) (intensity : String) (g : Rng) :
    (String × ℚ × ℚ × List String) × Rng :=
  let lang := detectLang text
  let original := (calculate_ai_score text).1
  if lang ≠ "en" then
    match mlOracle text with
    | some t' => ((t', original, 15, ["llm_multilingual_humanize:" ++ lang]), g)
    | none => ((text, original, original, ["fallback_failed"]), g)
  else
    let t0 := text.toList
    let (t1, n1) := remove_ai_markers t0
    let tech1 : List String := if 0 < n1 then ["ai_markers_removed:" ++ toString n1] else []
    let ((t2, n2), g2) := apply_phrase_paraphrasing t1 g
    let tech2 := tech1 ++ (if 0 < n2 then ["phrases_replaced:" ++ toString n2] else [])
    let ((t3, n3), g3) := apply_synonym_replacement t2 (intensity_map intensity) g2
    let tech3 := tech2 ++ (if 0 < n3 then ["synonyms_replaced:" ++ toString n3] else [])
    let ((t4, n4), g4) := add_contractions t3 g3
    let tech4 := tech3 ++ (if 0 < n4 then ["contractions_added:" ++ toString n4] else [])
    let t5 := fixSpacePunct (stripL (collapseWs t4))
    let newScore := (calculate_ai_score (String.mk t5)).1
    ((String.mk t5, original, newScore, tech4), g4)

/-! ## Response composer (`composer.py`) -/

/-- `ProvenanceItem` dataclass; the Python field `end` is named `stop` here
(`end` is a Lean keyword). -/
structure ProvenanceItem where
  start : Nat
  stop : Nat
  source : String
  kb_item_id : Option String
deriving DecidableEq, Repr

/-- `ComposedResponse` dataclass. -/
structure ComposedResponse where
  text : String
  provenance : List ProvenanceItem
  kb_percentage : ℚ
  ai_percentage : ℚ
deriving DecidableEq, Repr

/-- An entry of the composer's selected `kb_content` list
(`{'id': ..., 'content': ..., 'score': ...}`). -/
structure KBContent where
  id : String
  content : String
  score : ℚ
deriving DecidableEq, Repr

/-- The composer's stopword set (`_extract_relevant_content`). -/
def composerStopwords : List String :=
  ["the", "a", "an", "of", "in", "to", "for", "and", "or", "be", "is", "are",
   "must", "shall", "should", "have", "has", "with"]

/-- `re.split(r'(?<=[.!?])\s+', s)`: split at whitespace runs that follow one
of `. ! ?`.  `skip` is true while the separator run is being consumed. -/
def splitSentGo : Bool → Option Char → List Char → List Char → List (List Char)
  | _, _, acc, [] => [acc.reverse]
  | skip, prev, acc, c :: cs =>
    if skip && pyWS c then splitSentGo true none acc cs
    else if skip then splitSentGo false (some c) (c :: acc) cs
    else if pyWS c && (prev = some '.' || prev = some '!' || prev = some '?') then
      acc.reverse :: splitSentGo true none [] cs
    else splitSentGo false (some c) (c :: acc) cs

def splitSentPunct (s : List Char) : List (List Char) := splitSentGo false none [] s

/-- `set(s.lower().split()) - stopwords`, as an order-preserving duplicate-free
list (only membership and intersection size are ever used). -/
def wordSetMinusStop (s : List Char) : List (List Char) :=
  (dedupFirst [] (splitWsL (lowerL s))).filter
    (fun w => !(composerStopwords.map String.toList).contains w)

/-- `len(requirement_words & sentence_words)` for duplicate-free lists. -/
def overlapCount (a b : List (List Char)) : Nat :=
  (a.filter (fun w => b.contains w)).length

/-- The sentence-scoring pass of `_extract_relevant_content`: for every
long-enough sentence of every item, the stopword-filtered overlap with the
requirement words, keeping those with overlap ≥ 1. -/
def scoreSentences (reqW : List (List Char)) : List KBContent → List (Nat × List Char × String)
  | [] => []
  | item :: rest =>
    ((splitSentPunct item.content.toList).filterMap (fun sen =>
      if sen.length < 20 then none
      else
        let sw := wordSetMinusStop sen
        let ov := overlapCount reqW sw
        if 1 ≤ ov then some (ov, stripL sen, item.id) else none))
      ++ scoreSentences reqW rest

/-- Stable insertion, descending by overlap (ties keep original order, like
Python's stable `list.sort(reverse=True)`). -/
def insertDescBy (x : Nat × List Char × String) :
    List (Nat × List Char × String) → List (Nat × List Char × String)
  | [] => [x]
  | y :: ys => if y.1 ≤ x.1 then x :: y :: ys else y :: insertDescBy x ys

def sortDescBy : List (Nat × List Char × String) → List (Nat × List Char × String)
  | [] => []
  | x :: xs => insertDescBy x (sortDescBy xs)

/-- `_extract_relevant_content(requirement, kb_content)`. -/
def extract_relevant_content (requirement : String) (kb_content : List KBContent) : String :=
  let reqW := wordSetMinusStop requirement.toList
  let selected := (sortDescBy (scoreSentences reqW kb_content)).take 2
  if selected.isEmpty then
    match kb_content with
    | [] => ""
    | item :: _ => String.mk (item.content.toList.takeWhile (fun c => c ≠ '.') ++ ['.'])
  else String.intercalate " " (selected.map (fun x => String.mk x.2.1))

/-- `_select_kb_content(matches)`: only the best match, if its score exceeds 0.2. -/
def select_kb_content (matchList : List MatchResult) : List KBContent :=
  (matchList.take 1).filterMap (fun m =>
    if (1 / 5 : ℚ) < m.score then some (KBContent.mk m.kb_item_id m.content m.score) else none)

/-- `_generate_minimal_response`: the fixed fallback response. -/
def generate_minimal_response : ComposedResponse :=
  let text := "Please refer to our company documentation for detailed information on this requirement."
  ComposedResponse.mk text [ProvenanceItem.mk 0 text.length "AI_GENERATED" none] 0 100

/-- The sentence-picking loop of `_compose_kb_only`: collect up to two
stripped sentences of length ≥ 20. -/
def kbOnlyPick (k : Nat) : List (List Char) → List (List Char)
  | [] => []
  | s :: rest =>
    if 20 ≤ s.length then
      if 2 ≤ k + 1 then [stripL s] else stripL s :: kbOnlyPick (k + 1) rest
    else if 2 ≤ k then [] else kbOnlyPick k rest

/-- `_compose_kb_only(kb_content, matches)`. -/
def compose_kb_only (kb_content : List KBContent) : ComposedResponse :=
  match kb_content with
  | [] => ComposedResponse.mk "[Response pending - requires knowledge base content]" [] 0 0
  | best :: _ =>
    let selected := kbOnlyPick 0 (splitSentPunct best.content.toList)
    let rt := String.intercalate " " (selected.map String.mk)
    let rt := if rt = "" then strTake 200 best.content else rt
    ComposedResponse.mk rt [ProvenanceItem.mk 0 rt.length "KNOWLEDGE_BASE" (some best.id)] 100 0

/-- `_calculate_percentages(text, provenance)`. -/
def calculate_percentages (text : String) (provenance : List ProvenanceItem) : ℚ × ℚ :=
  if text.length = 0 then (0, 0)
  else
    let ai_len : ℕ := ((provenance.filter (fun p => p.source = "AI_GENERATED")).map
      (fun p => p.stop - p.start)).sum
    let kb_len : ℕ := ((provenance.filter (fun p => p.source = "KNOWLEDGE_BASE")).map
      (fun p => p.stop - p.start)).sum
    (((kb_len : ℚ) / (text.length : ℚ)) * 100, ((ai_len : ℚ) / (text.length : ℚ)) * 100)

/-- `self.replacements` of `ResponseComposer`, in source order. -/
def composer_replacements : List (String × String) :=
  [("utilize", "use"), ("leverage", "use"), ("facilitate", "help"),
   ("implement", "set up"), ("furthermore", "also"), ("in order to", "to"),
   ("it is important to note that", ""), ("it should be noted that", "")]

/-- `ResponseComposer._humanize(composed, mode)`: run `humanize_text`, apply
the composer's own replacement table, collapse whitespace; keep the original
provenance and `kb_percentage` and take the detector's new score as
`ai_percentage`. -/
def humanize_composed (detectLang : String → String) (mlOracle : String → Option String)
    (composed : ComposedResponse) (mode : String) (g : Rng) : ComposedResponse × Rng :=
  let (res, g1) := humanize_text detectLang mlOracle composed.text mode g
  let ht2 := composer_replacements.foldl
    (fun t e => replaceAllCI e.1.toList e.2.toList t) res.1.toList
  let ht3 := stripL (collapseWs ht2)
  (ComposedResponse.mk (String.mk ht3) composed.provenance composed.kb_percentage res.2.2.1, g1)

/-- The attempt loop of `_refine_for_tender` (up to 10 attempts).  `llm k`
models the Mistral chat completion answered to attempt `k` (`none` = non-200
status or exception, after which the source breaks out and reports failure).
Each raw reply is wrapped exactly as the source wraps it (provenance spanning
the raw text, placeholder percentages 50/100), humanized, and accepted the
moment its `ai_percentage` is at most `settings.max_ai_percentage = 30`. -/
def refineLoop (detectLang : String → String) (mlOracle : String → Option String)
    (llm : Nat → Option String) (mode : String) :
    Nat → Nat → Rng → Option ComposedResponse × Rng
  | _, 0, g => (none, g)
  | attempt, rem + 1, g =>
    match llm attempt with
    | none => (none, g)
    | some raw =>
      let temp := ComposedResponse.mk raw
        [ProvenanceItem.mk 0 raw.length "KNOWLEDGE_BASE" none] 50 100
      let (hum, g1) := humanize_composed detectLang mlOracle temp mode g
      if hum.ai_percentage ≤ 30 then (some hum, g1)
      else refineLoop detectLang mlOracle llm mode (attempt + 1) rem g1

/-- `_refine_for_tender`: `none` immediately when no API key is configured,
otherwise the bounded attempt loop.  (The prompt strings, mode/tone phrasing
and the language detected for the prompt do not influence the embedded state
beyond the oracle's answer.) -/
def refine_for_tender (detectLang : String → String) (mlOracle : String → Option String)
    (llm : Nat → Option String) (hasKey : Bool) (mode : String) (g : Rng) :
    Option ComposedResponse × Rng :=
  if !hasKey then (none, g)
  else refineLoop detectLang mlOracle llm mode 0 10 g

/-- `ResponseComposer.compose(requirement, matches, style, mode, tone)`. -/
def compose (detectLang : String → String) (mlOracle : String → Option String)
    (llm : Nat → Option String) (hasKey : Bool)
    (requirement : String) (matchList : List MatchResult)
    (style mode tone : String) (g : Rng) : ComposedResponse × Rng :=
  if matchList.isEmpty then (generate_minimal_response, g)
  else
    let kb_content := select_kb_content matchList
    if kb_content.isEmpty then (generate_minimal_response, g)
    else
      let relevant_text := extract_relevant_content requirement kb_content
      let refined : Option ComposedResponse × Rng :=
        if 30 ≤ relevant_text.length then
          refine_for_tender detectLang mlOracle llm hasKey mode g
        else (none, g)
      match refined with
      | (some r, g1) => (r, g1)
      | (none, g1) =>
        if relevant_text ≠ "" && 20 ≤ relevant_text.length then
          let composed := ComposedResponse.mk relevant_text
            [ProvenanceItem.mk 0 relevant_text.length "KNOWLEDGE_BASE"
              (some ((kb_content.headD (KBContent.mk "" "" 0)).id))] 100 0
          humanize_composed detectLang mlOracle composed mode g1
        else humanize_composed detectLang mlOracle (compose_kb_only kb_content) mode g1

/-! ## Requirement extractor (`extractor.py`)

The extractor's regexes are compiled to token sequences: a regex is a
disjunction of branches, each branch a sequence of tokens — literal, `.*`
(gap), `\s+`, `\s*`, `\d+`, or a group of literal alternatives.  An optional
group immediately after `.*` is matchable iff the pattern without it is, so
such groups are dropped; the one optional group not in that position
(`(?:a\s+)?` in an eligibility pattern) is expanded into two branches.
Matching is existence of a match (`re.search`), which is what the source
uses these patterns for. -/

inductive Tok where
  | lit : List Char → Tok
  | gap : Tok
  | ws1 : Tok
  | wss : Tok
  | digits : Tok
  | alts : List (List Char) → Tok
deriving Repr

/-- Token-sequence matcher anchored at the start of `s`, fuel-driven (each
step consumes a token or a character, so `ts.length + s.length + 1` fuel is
always enough). -/
def matchToksF : Nat → List Tok → List Char → Bool
  | 0, _, _ => false
  | _ + 1, [], _ => true
  | f + 1, Tok.lit w :: rest, s => startsWithL s w && matchToksF f rest (s.drop w.length)
  | f + 1, Tok.gap :: rest, s =>
    matchToksF f rest s ||
      (match s with
       | [] => false
       | _ :: cs => matchToksF f (Tok.gap :: rest) cs)
  | f + 1, Tok.ws1 :: rest, s =>
    match s with
    | [] => false
    | c :: cs => pyWS c && (matchToksF f rest cs || matchToksF f (Tok.ws1 :: rest) cs)
  | f + 1, Tok.wss :: rest, s =>
    matchToksF f rest s ||
      (match s with
       | [] => false
       | c :: cs => pyWS c && matchToksF f (Tok.wss :: rest) cs)
  | f + 1, Tok.digits :: rest, s =>
    match s with
    | [] => false
    | c :: cs => c.isDigit && (matchToksF f rest cs || matchToksF f (Tok.digits :: rest) cs)
  | f + 1, Tok.alts ws :: rest, s =>
    ws.any (fun w => startsWithL s w && matchToksF f rest (s.drop w.length))

def matchToks (ts : List Tok) (s : List Char) : Bool :=
  matchToksF (ts.length + s.length + 1) ts s

/-- `re.search`: a match starting at any position. -/
def searchToks (ts : List Tok) : List Char → Bool
  | [] => matchToks ts []
  | c :: cs => matchToks ts (c :: cs) || searchToks ts cs

/-- One compiled regex: a disjunction of token branches. -/
def rePatSearch (p : List (List Tok)) (s : List Char) : Bool :=
  p.any (fun b => searchToks b s)

/-- Literal token from a string. -/
def tl (s : String) : Tok := Tok.lit s.toList

/-- Alternative-group token from strings. -/
def ta (ss : List String) : Tok := Tok.alts (ss.map String.toList)

/-- `self.eligibility_patterns`, compiled (all searched case-insensitively on
the lowered sentence).  In pattern 2 the group `(?:\d+\s*)?` follows `.*` and
is dropped; `years?` becomes the alternatives `years`/`year`; pattern 9's
`(?:a\s+)?` is expanded into two branches. -/
def eligibility_patterns : List (List (List Tok)) :=
  [[[tl ("must have"), Tok.gap, ta ["certification", "certificate", "license"]]],
   [[tl ("minimum"), Tok.gap, ta ["years", "year"], Tok.gap, tl ("experience")]],
   [[tl ("registered"), Tok.gap, ta ["company", "firm", "entity"]]],
   [[tl ("turnover"), Tok.gap, ta ["crore", "lakh", "million", "billion"]]],
   [[tl ("iso"), Tok.wss, Tok.digits, Tok.gap, tl ("certified")]],
   [[tl ("annual"), Tok.gap, tl ("revenue")]],
   [[tl ("net"), Tok.wss, tl ("worth")]],
   [[tl ("valid"), Tok.gap, tl ("registration")]],
   [[ta ["should", "must", "shall"], Tok.ws1, tl ("be"), Tok.ws1, tl ("registered")],
    [ta ["should", "must", "shall"], Tok.ws1, tl ("be"), Tok.ws1, tl ("a"), Tok.ws1, tl ("registered")]],
   [[tl ("empaneled"), Tok.ws1, tl ("with")]],
   [[tl ("financial"), Tok.gap, ta ["standing", "capability", "capacity"]]],
   [[tl ("past"), Tok.gap, ta ["performance", "experience"]]],
   [[tl ("similar"), Tok.gap, ta ["work", "project", "contract"]]]]

/-- `self.technical_patterns`, compiled.  `deliverables?` reduces to the
literal `deliverable` because the optional `s` is followed by `.*`. -/
def technical_patterns : List (List (List Tok)) :=
  [[[ta ["shall", "must", "should"], Tok.ws1, tl ("provide")]],
   [[ta ["shall", "must", "should"], Tok.ws1, tl ("implement")]],
   [[tl ("system"), Tok.ws1, ta ["must", "shall", "should"]]],
   [[tl ("technical"), Tok.gap, tl ("specification")]],
   [[tl ("deliverable"), Tok.gap, ta ["include", "consist"]]],
   [[tl ("solution"), Tok.ws1, ta ["must", "shall", "should"]]],
   [[ta ["hardware", "software"], Tok.ws1, tl ("requirement")]],
   [[tl ("platform"), Tok.ws1, ta ["must", "shall", "should"]]],
   [[tl ("integration"), Tok.ws1, tl ("with")]],
   [[tl ("support"), Tok.gap, tl ("24x7")],
    [tl ("support"), Tok.gap, tl ("round"), Tok.gap, tl ("clock")]],
   [[tl ("uptime"), Tok.gap, Tok.digits, tl ("%")],
    [tl ("uptime"), Tok.gap, Tok.digits, Tok.wss, tl ("percent")]],
   [[tl ("performance"), Tok.gap, tl ("requirement")]],
   [[tl ("scalability")]],
   [[tl ("security"), Tok.gap, ta ["feature", "requirement", "standard"]]]]

/-- `self.compliance_patterns`, compiled. -/
def compliance_patterns : List (List (List Tok)) :=
  [[[tl ("attach"), Tok.gap, ta ["certificate", "document", "proof"]]],
   [[tl ("provide"), Tok.gap, ta ["evidence", "proof", "documentation"]]],
   [[tl ("submit"), Tok.gap, ta ["document", "certificate", "declaration"]]],
   [[tl ("confirm"), Tok.gap, tl ("compliance")]],
   [[tl ("undertaking"), Tok.gap, ta ["that", "stating"]]],
   [[tl ("declaration"), Tok.gap, ta ["that", "stating"]]],
   [[tl ("affidavit")]],
   [[tl ("self"), Tok.gap, tl ("certification")]],
   [[tl ("duly"), Tok.gap, tl ("signed")]],
   [[tl ("notarized")]],
   [[tl ("comply"), Tok.ws1, tl ("with")]],
   [[tl ("adherence"), Tok.ws1, tl ("to")]],
   [[tl ("in"), Tok.ws1, tl ("accordance"), Tok.ws1, tl ("with")]]]

/-- `self.requirement_indicators`, compiled. -/
def requirement_indicators : List (List (List Tok)) :=
  [[[ta ["shall", "must", "should", "will"]],
    [tl ("need"), Tok.ws1, tl ("to")],
    [tl ("required"), Tok.ws1, tl ("to")]],
   [[tl ("mandatory")]],
   [[tl ("essential")]],
   [[tl ("prerequisite")]],
   [[tl ("minimum"), Tok.gap, tl ("requirement")]],
   [[tl ("eligibility"), Tok.gap, tl ("criteria")]]]

/-- `RequirementCategory` enum. -/
inductive RequirementCategory where
  | ELIGIBILITY
  | TECHNICAL
  | COMPLIANCE
deriving DecidableEq, Repr

/-- `ExtractedRequirement` dataclass. -/
structure ExtractedRequirement where
  text : String
  category : RequirementCategory
  subcategory : Option String
  confidence : ℚ
  page_number : Option Nat
  order : Nat
deriving DecidableEq, Repr

/-- A page record (`{page_num, content}`) as handed to `extract`. -/
structure PageD where
  page_num : Nat
  content : String
deriving DecidableEq, Repr

/-- `_is_requirement(sentence)`: any indicator or category pattern matches
(patterns are compiled with `re.IGNORECASE`; the sentence is lowered here). -/
def is_requirement (sentence : List Char) : Bool :=
  let low := lowerL sentence
  requirement_indicators.any (fun p => rePatSearch p low) ||
  eligibility_patterns.any (fun p => rePatSearch p low) ||
  technical_patterns.any (fun p => rePatSearch p low) ||
  compliance_patterns.any (fun p => rePatSearch p low)

/-- `_categorize(sentence)`: count hits per category, overwriting the
subcategory on every matching pattern ("last matching rule wins"); ties are
broken by the dict's insertion order ELIGIBILITY, TECHNICAL, COMPLIANCE
(`max(scores, key=scores.get)` returns the first maximal key). -/
def categorize (sentence : List Char) : RequirementCategory × ℚ × Option String :=
  let low := lowerL sentence
  let e := eligibility_patterns.foldl (fun (st : Nat × Option String) p =>
    if rePatSearch p low then
      (st.1 + 1,
        if containsSub ("certification").toList low || containsSub ("iso").toList low then
          some "Certifications"
        else if containsSub ("experience").toList low || containsSub ("years").toList low then
          some "Experience"
        else if containsSub ("turnover").toList low || containsSub ("revenue").toList low then
          some "Financial"
        else st.2)
    else st) ((0 : Nat), (none : Option String))
  let t := technical_patterns.foldl (fun (st : Nat × Option String) p =>
    if rePatSearch p low then
      (st.1 + 1,
        if containsSub ("security").toList low then some "Security"
        else if containsSub ("performance").toList low then some "Performance"
        else if containsSub ("integration").toList low then some "Integration"
        else st.2)
    else st) ((0 : Nat), e.2)
  let c := compliance_patterns.foldl (fun (st : Nat × Option String) p =>
    if rePatSearch p low then
      (st.1 + 1,
        if containsSub ("certificate").toList low then some "Documentation"
        else if containsSub ("declaration").toList low ||
            containsSub ("undertaking").toList low then some "Declarations"
        else st.2)
    else st) ((0 : Nat), t.2)
  let maxScore := max e.1 (max t.1 c.1)
  if maxScore = 0 then (RequirementCategory.TECHNICAL, 1 / 2, none)
  else
    let category :=
      if e.1 = maxScore then RequirementCategory.ELIGIBILITY
      else if t.1 = maxScore then RequirementCategory.TECHNICAL
      else RequirementCategory.COMPLIANCE
    (category, min ((maxScore : ℚ) / ((e.1 + t.1 + c.1 : Nat) : ℚ)) (99 / 100), c.2)

/-- The abbreviation alternatives of `_split_sentences`, in regex order. -/
def abbrevAltsList : List (List Char) :=
  (["Mr", "Mrs", "Ms", "Dr", "Prof", "Inc", "Ltd", "Co", "etc"]).map String.toList

/-- A match of `\b(Mr|Mrs|...)\.\s` at the start of `s` (given the previous
character): the first alternative that is followed by a period and a
whitespace character wins, exactly as the regex engine backtracks. -/
def abbrevHere (prev : Option Char) (s : List Char) : Option (List Char × Char × List Char) :=
  if boundaryBefore prev then
    abbrevAltsList.findSome? (fun a =>
      if startsWithL s a then
        match s.drop a.length with
        | '.' :: c2 :: rest2 => if pyWS c2 then some (a, c2, rest2) else none
        | _ => none
      else none)
  else none

/-- `re.sub(r'\b(Mr|Mrs|Ms|Dr|Prof|Inc|Ltd|Co|etc)\.\s', r'\1<PERIOD> ', text)`. -/
def replaceAbbrevF : Nat → Option Char → List Char → List Char
  | 0, _, s => s
  | _ + 1, _, [] => []
  | f + 1, prev, c :: cs =>
    match abbrevHere prev (c :: cs) with
    | some (a, wsc, rest) => a ++ ("<PERIOD> ").toList ++ replaceAbbrevF f (some wsc) rest
    | none => c :: replaceAbbrevF f (some c) cs

def replaceAbbrev (s : List Char) : List Char := replaceAbbrevF (s.length + 1) none s

/-- The three characters of the mojibake bullet literal `â€¢` in the source's
list-marker regex (the bullet `•` read back in a single-byte encoding). -/
def bulletChars : List Char := [Char.ofNat 226, Char.ofNat 8364, Char.ofNat 162]

/-- Length of a match of `\n\s*(?:\d+[\.\)]\s*|â€¢\s*|\-\s*)` at the start of
`s`, with the regex's greedy semantics (all quantifiers here are maximal runs
and no backtracking can rescue a failed branch, since no branch starts with a
whitespace character). -/
def bulletSepLen (s : List Char) : Option Nat :=
  match s with
  | [] => none
  | c :: rest =>
    if c ≠ Char.ofNat 10 then none
    else
      let wsN := (rest.takeWhile pyWS).length
      let r2 := rest.drop wsN
      let dN := (r2.takeWhile Char.isDigit).length
      if 0 < dN then
        match r2.drop dN with
        | c2 :: r3 =>
          if c2 = '.' || c2 = ')' then some (1 + wsN + dN + 1 + (r3.takeWhile pyWS).length)
          else none
        | [] => none
      else if startsWithL r2 bulletChars then
        some (1 + wsN + 3 + ((r2.drop 3).takeWhile pyWS).length)
      else
        match r2 with
        | '-' :: r3 => some (1 + wsN + 1 + (r3.takeWhile pyWS).length)
        | _ => none

/-- `re.split` on the list-marker regex: emit a field before every match. -/
def bulletSplitF : Nat → List Char → List Char → List (List Char)
  | 0, acc, s => [acc.reverse ++ s]
  | _ + 1, acc, [] => [acc.reverse]
  | f + 1, acc, c :: cs =>
    match bulletSepLen (c :: cs) with
    | some n => acc.reverse :: bulletSplitF f [] ((c :: cs).drop n)
    | none => bulletSplitF f (c :: acc) cs

def bulletSplit (s : List Char) : List (List Char) := bulletSplitF (s.length + 1) [] s

/-- `_split_sentences(text)`: guard abbreviations, split at whitespace after
sentence punctuation, restore the guarded periods, split numbered/bulleted
list items, strip, drop empties. -/
def split_sentences (text : List Char) : List (List Char) :=
  let t1 := replaceAbbrev text
  let sentences := splitSentPunct t1
  let sentences := sentences.map (fun s => replaceAllCS ("<PERIOD>").toList (".".toList) s)
  let expanded := (sentences.map bulletSplit).flatten
  (expanded.map stripL).filter (fun s => !s.isEmpty)

/-- `_find_page_number(sentence, pages)` (with `pages`'s Python truthiness:
`none` and the empty list both yield `None`). -/
def find_page_number (sentence : List Char) (pages : Option (List PageD)) : Option Nat :=
  match pages with
  | none => none
  | some ps =>
    let key := (lowerL sentence).take 50
    (ps.find? (fun p => containsSub key (lowerL p.content.toList))).map (fun p => p.page_num)

/-- The sentence loop of `extract` (the rule-based path): skip short and
duplicate sentences and non-requirements, categorize, assign `order` as a
running counter, stop after 50 accepted items. -/
def ruleLoop (pages : Option (List PageD)) :
    List (List Char) → List (List Char) → Nat → List ExtractedRequirement →
      List ExtractedRequirement
  | [], _, _, acc => acc
  | s0 :: rest, seen, order, acc =>
    let s := stripL s0
    if s.length < 20 || seen.contains (lowerL s) then ruleLoop pages rest seen order acc
    else if !is_requirement s then ruleLoop pages rest seen order acc
    else
      let ctc := categorize s
      let acc' := acc ++ [ExtractedRequirement.mk (String.mk s) ctc.1 ctc.2.2 ctc.2.1
        (find_page_number s pages) order]
      if 50 ≤ order + 1 then acc'
      else ruleLoop pages rest (seen ++ [lowerL s]) (order + 1) acc'

/-- The rule-based extraction path of `extract`. -/
def extract_rule (pages : Option (List PageD)) (text : String) : List ExtractedRequirement :=
  ruleLoop pages (split_sentences text.toList) [] 0 []

/-- An item of the parsed LLM response (`{"text": ..., "category": ...,
"subcategory": ...}`); a missing text is the empty string. -/
structure LlmItem where
  text : String
  category : String
  subcategory : Option String
deriving DecidableEq, Repr

/-- `RequirementCategory(value)`: `none` models the `ValueError` an unknown
category raises. -/
def categoryOfString (s : String) : Option RequirementCategory :=
  if s = "ELIGIBILITY" then some RequirementCategory.ELIGIBILITY
  else if s = "TECHNICAL" then some RequirementCategory.TECHNICAL
  else if s = "COMPLIANCE" then some RequirementCategory.COMPLIANCE
  else none

/-- The item loop of `_extract_llm` (lines 213-228): skip items with empty
text but keep `enumerate`'s index `i` as `order`; an invalid category raises,
which the surrounding `except` turns into an empty result (`none` here). -/
def extractLlmGo (pages : Option (List PageD)) :
    Nat → List LlmItem → Option (List ExtractedRequirement)
  | _, [] => some []
  | i, it :: rest =>
    if it.text = "" then extractLlmGo pages (i + 1) rest
    else
      match categoryOfString it.category with
      | none => none
      | some cat =>
        match extractLlmGo pages (i + 1) rest with
        | none => none
        | some l =>
          some (ExtractedRequirement.mk it.text cat it.subcategory (19 / 20)
            (find_page_number it.text.toList pages) i :: l)

/-- `_extract_llm`: the mapping of the parsed LLM items; any failure yields
the empty list. -/
def extract_llm (items : List LlmItem) (pages : Option (List PageD)) :
    List ExtractedRequirement :=
  (extractLlmGo pages 0 items).getD []

/-- `RequirementExtractor.extract(text, pages)`.  `lang` is the answer of the
external `langdetect.detect` on the leading sample, `hasKey` whether a
Mistral key is configured, and `llmItems` the parsed answer of the LLM
collaborator when it is consulted. -/
def extract (lang : String) (hasKey : Bool) (llmItems : List LlmItem)
    (pages : Option (List PageD)) (text : String) : List ExtractedRequirement :=
  if lang ≠ "en" && hasKey then extract_llm llmItems pages
  else
    let reqs := extract_rule pages text
    if reqs.isEmpty && lang = "hi" && hasKey then extract_llm llmItems pages
    else reqs

/-! ## Shared concrete oracles for the evaluation theorems -/

/-- The language detector on plain-English input. -/
def enDetect : String → String := fun _ => "en"

/-- An absent multilingual-humanize collaborator (never consulted on English
input). -/
def noMl : String → Option String := fun _ => none

/-- An absent LLM collaborator. -/
def noLlm : Nat → Option String := fun _ => none

/-- A concrete random stream.  The evaluation inputs below contain no synonym
key, no contraction pattern and no paraphrase phrase, so the humanization
chain's output does not depend on the draws. -/
def zeroRng : Rng := Rng.mk (fun _ => 0) (fun _ => 0) 0 0

/-! ## Theorems -/

/-- `round2` keeps a value of `[0, 100]` inside `[0, 100]`. -/
theorem round2_bounds {x : ℚ} (h0 : 0 ≤ x) (h1 : x ≤ 100) :
    0 ≤ round2 x ∧ round2 x ≤ 100 := by
  unfold round2
  have hfl : (0 : ℤ) ≤ round (x * 100) := by
    rw [round_eq]
    exact Int.le_floor.mpr (by push_cast; linarith)
  have hfu : round (x * 100) ≤ 10000 := by
    rw [round_eq]
    calc ⌊x * 100 + 1 / 2⌋ ≤ ⌊(10000 : ℚ) + 1 / 2⌋ := Int.floor_le_floor (by linarith)
      _ = 10000 := by norm_num [Int.floor_eq_iff]
  constructor
  · have h2 : (0 : ℚ) ≤ ((round (x * 100) : ℤ) : ℚ) := by exact_mod_cast hfl
    linarith
  · have h2 : ((round (x * 100) : ℤ) : ℚ) ≤ 10000 := by exact_mod_cast hfu
    linarith

/-- The final scaling step of the detector stays inside `[0, 100]`. -/
theorem preScale_bounds (raw wc : ℕ) :
    0 ≤ (if wc < 50 then min ((raw : ℚ) * (4 / 5)) 100
         else if wc < 100 then min ((raw : ℚ) * (9 / 10)) 100
         else min ((raw : ℚ)) 100) ∧
    (if wc < 50 then min ((raw : ℚ) * (4 / 5)) 100
     else if wc < 100 then min ((raw : ℚ) * (9 / 10)) 100
     else min ((raw : ℚ)) 100) ≤ 100 := by
  split
  · exact ⟨le_min (by positivity) (by norm_num), min_le_right _ _⟩
  · split
    · exact ⟨le_min (by positivity) (by norm_num), min_le_right _ _⟩
    · exact ⟨le_min (by positivity) (by norm_num), min_le_right _ _⟩

/-- **C9.**  The detector is embedded as a function of the text alone — the
source consults no randomness and no collaborator in `calculate_ai_score`, so
repeated calls agree by construction — and its score always lies in `[0, 100]`. -/
theorem c9_detector_pure_and_bounded (text : String) :
    calculate_ai_score text = calculate_ai_score text ∧
    0 ≤ (calculate_ai_score text).1 ∧ (calculate_ai_score text).1 ≤ 100 := by
  refine ⟨rfl, ?_⟩
  unfold calculate_ai_score
  dsimp only
  split
  · norm_num
  · have h := preScale_bounds
      ((burstinessPart (sentencesOf text.toList)).1 +
        (lexicalPart (splitWsL text.toList) (splitWsL text.toList).length).1 +
        (formalityPart text.toList (lowerL text.toList) (splitWsL text.toList).length).1 +
        (startersPart (sentencesOf text.toList)).1 +
        (phrasesPart (lowerL text.toList)).1 +
        (buzzwordsPart (lowerL text.toList)).1)
      (splitWsL text.toList).length
    exact round2_bounds h.1 h.2

set_option maxRecDepth 40000 in
/-- **C8.**  The four-sentence uniform text scores 64 — strictly above 40 —
and both the burstiness tag `very_uniform_sentences` and the starter tag
`repetitive_starter:this` are among the detected signals. -/
theorem c8_uniform_text_scores_high :
    40 < (calculate_ai_score "This is good. This is fine. This is nice. This is great.").1 ∧
    "very_uniform_sentences" ∈
      (calculate_ai_score "This is good. This is fine. This is nice. This is great.").2 ∧
    "repetitive_starter:this" ∈
      (calculate_ai_score "This is good. This is fine. This is nice. This is great.").2 := by
  with_unfolding_all decide

set_option maxRecDepth 40000 in
/-- **C3** (code bug).  `remove_ai_markers` compiles each buzzword pattern as
`r'\b' + word + r'\\b'`; the trailing `r'\\b'` is a literal backslash-`b`, so
the pattern never matches the word in ordinary text: on
`"We must delve deeper here."` the function returns the text unchanged with
zero replacements even though `delve` occurs as a standalone word, while the
same substitution does fire when the text literally contains `delve\b`. -/
theorem c3_buzzword_removal_never_fires :
    remove_ai_markers ("We must delve deeper here.").toList =
      (("We must delve deeper here.").toList, 0) ∧
    containsWord ("delve").toList ("We must delve deeper here.").toList = true ∧
    replaceWordBackslashB ("delve").toList ("explore").toList
      (("delve" ++ String.mk [bsC] ++ "b x").toList) = ("explore x").toList := by
  with_unfolding_all decide

/-- **C5.**  `compose` with an empty match list returns the fixed minimal
response: non-empty text, `ai_percentage = 100`, `kb_percentage = 0`, and a
single AI_GENERATED provenance span covering the whole text. -/
theorem c5_compose_empty_matches (detectLang : String → String)
    (mlOracle : String → Option String) (llm : Nat → Option String) (hasKey : Bool)
    (requirement style mode tone : String) (g : Rng) :
    (compose detectLang mlOracle llm hasKey requirement [] style mode tone g).1.text ≠ "" ∧
    (compose detectLang mlOracle llm hasKey requirement [] style mode tone g).1.ai_percentage = 100 ∧
    (compose detectLang mlOracle llm hasKey requirement [] style mode tone g).1.kb_percentage = 0 ∧
    (compose detectLang mlOracle llm hasKey requirement [] style mode tone g).1.provenance =
      [ProvenanceItem.mk 0
        (compose detectLang mlOracle llm hasKey requirement [] style mode tone g).1.text.length
        "AI_GENERATED" none] := by
  have h : (compose detectLang mlOracle llm hasKey requirement [] style mode tone g).1 =
      generate_minimal_response := by
    simp [compose]
  rw [h]
  refine ⟨by decide, rfl, rfl, by decide⟩

set_option maxRecDepth 200000 in
/-- **C1** (code bug).  On the deterministic no-LLM excerpt path, `_humanize`
overwrites `ai_percentage` with the detector score of the humanized text while
leaving `kb_percentage` at 100, so the rounded percentages of the returned
`ComposedResponse` sum to 140, far outside 100 ± 1.  The language detector is
instantiated as the constant `"en"` (the text is plain English) and the random
stream is irrelevant on this input: no synonym key, contraction pattern or
paraphrase phrase occurs in it, so every draw leaves the text unchanged. -/
theorem c1_percentage_conservation_fails :
    ((compose enDetect noMl noLlm false "connector widget quality"
      [MatchResult.mk "kb1"
        "This connector widget is wonderful. This connector widget is fantastic."
        (9 / 10) 1] "professional" "balanced" "professional" zeroRng).1.text ≠ "") ∧
    (compose enDetect noMl noLlm false "connector widget quality"
      [MatchResult.mk "kb1"
        "This connector widget is wonderful. This connector widget is fantastic."
        (9 / 10) 1] "professional" "balanced" "professional" zeroRng).1.kb_percentage = 100 ∧
    (compose enDetect noMl noLlm false "connector widget quality"
      [MatchResult.mk "kb1"
        "This connector widget is wonderful. This connector widget is fantastic."
        (9 / 10) 1] "professional" "balanced" "professional" zeroRng).1.ai_percentage = 40 ∧
    round (compose enDetect noMl noLlm false "connector widget quality"
      [MatchResult.mk "kb1"
        "This connector widget is wonderful. This connector widget is fantastic."
        (9 / 10) 1] "professional" "balanced" "professional" zeroRng).1.kb_percentage +
      round (compose enDetect noMl noLlm false "connector widget quality"
        [MatchResult.mk "kb1"
          "This connector widget is wonderful. This connector widget is fantastic."
          (9 / 10) 1] "professional" "balanced" "professional" zeroRng).1.ai_percentage = 140 := by
  with_unfolding_all decide

set_option maxRecDepth 200000 in
/-- **C2** (code bug).  `_humanize` rewrites the response text (here the
phrase pass shortens `further reinforced` to `strengthened`) but keeps the
provenance spans computed for the original text: the single span is 101 long
while the returned text has only 95 characters, so the spans' total length
exceeds the text length. -/
theorem c2_provenance_exceeds_text :
    ((compose enDetect noMl noLlm false "connector widget quality"
      [MatchResult.mk "kb2"
        "This connector widget has been further reinforced lately. This connector widget is excellent overall."
        (9 / 10) 1] "professional" "balanced" "professional" zeroRng).1.provenance.map
        (fun p => p.stop - p.start)).sum = 101 ∧
    (compose enDetect noMl noLlm false "connector widget quality"
      [MatchResult.mk "kb2"
        "This connector widget has been further reinforced lately. This connector widget is excellent overall."
        (9 / 10) 1] "professional" "balanced" "professional" zeroRng).1.text.length = 95 ∧
    ¬ ((compose enDetect noMl noLlm false "connector widget quality"
      [MatchResult.mk "kb2"
        "This connector widget has been further reinforced lately. This connector widget is excellent overall."
        (9 / 10) 1] "professional" "balanced" "professional" zeroRng).1.provenance.map
        (fun p => p.stop - p.start)).sum ≤
      (compose enDetect noMl noLlm false "connector widget quality"
        [MatchResult.mk "kb2"
          "This connector widget has been further reinforced lately. This connector widget is excellent overall."
          (9 / 10) 1] "professional" "balanced" "professional" zeroRng).1.text.length := by
  with_unfolding_all decide

/-- The `search` loop never keeps more than `top_k` results once fewer than
`top_k` are accumulated (the loop breaks right after the `top_k`-th append). -/
theorem searchLoop_length_le (kb : List KBItem) (ms : ℚ) (qt : Option String) (topK : Nat) :
    ∀ hits acc, acc.length < topK → (searchLoop kb ms qt topK hits acc).length ≤ topK := by
  intro hits
  induction hits with
  | nil => intro acc h; simpa [searchLoop] using Nat.le_of_lt h
  | cons hd tl ih =>
    intro acc h
    obtain ⟨score, idx⟩ := hd
    simp only [searchLoop]
    split
    · exact ih acc h
    · split
      · exact ih acc h
      · split
        · simp only [List.length_append, List.length_cons, List.length_nil]
          omega
        · rename_i hnle
          apply ih
          simp only [List.length_append, List.length_cons, List.length_nil] at hnle ⊢
          omega

/-- Every result the `search` loop keeps passed the `min_score` test. -/
theorem searchLoop_scores (kb : List KBItem) (ms : ℚ) (qt : Option String) (topK : Nat) :
    ∀ hits acc, (∀ a ∈ acc, ms ≤ a.score) →
      ∀ r ∈ searchLoop kb ms qt topK hits acc, ms ≤ r.score := by
  intro hits
  induction hits with
  | nil => intro acc h; simpa [searchLoop] using h
  | cons hd tl ih =>
    intro acc h
    obtain ⟨score, idx⟩ := hd
    simp only [searchLoop]
    split
    · exact ih acc h
    · split
      · exact ih acc h
      · rename_i hcond _
        have hsc : ms ≤ score := by
          simp only [Bool.or_eq_true, decide_eq_true_eq, not_or] at hcond
          exact le_of_not_lt hcond.2
        have hacc' : ∀ a ∈ acc ++ [MatchResult.mk
            (kb.getD idx.toNat (KBItem.mk "" "" none)).id
            (kb.getD idx.toNat (KBItem.mk "" "" none)).content score (acc.length + 1)],
            ms ≤ a.score := by
          intro a ha
          rcases List.mem_append.mp ha with ha | ha
          · exact h a ha
          · simp only [List.mem_singleton] at ha
            subst ha
            exact hsc
        split
        · exact hacc'
        · exact ih _ hacc'

/-- The `search` loop assigns ranks densely: `len(results) + 1` at each
append. -/
theorem searchLoop_ranks (kb : List KBItem) (ms : ℚ) (qt : Option String) (topK : Nat) :
    ∀ hits acc, acc.map MatchResult.rank = List.range' 1 acc.length →
      (searchLoop kb ms qt topK hits acc).map MatchResult.rank =
        List.range' 1 (searchLoop kb ms qt topK hits acc).length := by
  intro hits
  induction hits with
  | nil => intro acc h; simpa [searchLoop] using h
  | cons hd tl ih =>
    intro acc h
    obtain ⟨score, idx⟩ := hd
    simp only [searchLoop]
    split
    · exact ih acc h
    · split
      · exact ih acc h
      · have hacc' : (acc ++ [MatchResult.mk
            (kb.getD idx.toNat (KBItem.mk "" "" none)).id
            (kb.getD idx.toNat (KBItem.mk "" "" none)).content score (acc.length + 1)]).map
              MatchResult.rank =
            List.range' 1 (acc ++ [MatchResult.mk
              (kb.getD idx.toNat (KBItem.mk "" "" none)).id
              (kb.getD idx.toNat (KBItem.mk "" "" none)).content score (acc.length + 1)]).length := by
          simp only [List.map_append, List.length_append, List.length_cons, List.length_nil,
            List.map_cons, List.map_nil, h]
          have h1 : acc.length + (0 + 1) = acc.length + 1 := by omega
          rw [h1, List.range'_concat]
          congr 1
          simp [Nat.add_comm]
        split
        · exact hacc'
        · exact ih _ hacc'

/-- **C4.**  `search` returns at most `top_k` results, every returned score
is at least `min_score`, and the rank fields are exactly `1, 2, ..., n` in
order.  The hypothesis records what FAISS guarantees: the index is asked for
`search_k = min(top_k * 10 if tenant_id else top_k, ntotal)` neighbours, so at
most that many hits come back. -/
theorem c4_search_contract (kb : List KBItem) (ntotal : Nat) (hits : List (ℚ × Int))
    (topK : Nat) (minScore : ℚ) (qt : Option String)
    (h : hits.length ≤ searchK topK qt ntotal) :
    (search kb ntotal hits topK minScore qt).length ≤ topK ∧
    (∀ r ∈ search kb ntotal hits topK minScore qt, minScore ≤ r.score) ∧
    (search kb ntotal hits topK minScore qt).map MatchResult.rank =
      List.range' 1 (search kb ntotal hits topK minScore qt).length := by
  unfold search
  split
  · simp
  · rcases Nat.eq_zero_or_pos topK with h0 | hpos
    · subst h0
      have hk : searchK 0 qt ntotal = 0 := by
        simp [searchK]
      rw [hk] at h
      have : hits = [] := List.length_eq_zero.mp (Nat.le_zero.mp h)
      subst this
      simp [searchLoop]
    · exact ⟨searchLoop_length_le kb minScore qt topK hits [] (by simpa using hpos),
        searchLoop_scores kb minScore qt topK hits [] (by simp),
        searchLoop_ranks kb minScore qt topK hits [] (by simp)⟩

/-- Witness for C4 at a concrete index and hit list. -/
theorem c4_search_contract_witness :
    ([((1 : ℚ), (0 : Int))].length ≤ searchK 5 none 1) ∧
    (search [KBItem.mk "a" "x" none] 1 [((1 : ℚ), (0 : Int))] 5 0 none).length ≤ 5 ∧
    (∀ r ∈ search [KBItem.mk "a" "x" none] 1 [((1 : ℚ), (0 : Int))] 5 0 none,
      (0 : ℚ) ≤ r.score) ∧
    (search [KBItem.mk "a" "x" none] 1 [((1 : ℚ), (0 : Int))] 5 0 none).map MatchResult.rank =
      List.range' 1 (search [KBItem.mk "a" "x" none] 1 [((1 : ℚ), (0 : Int))] 5 0 none).length :=
  ⟨by decide, c4_search_contract [KBItem.mk "a" "x" none] 1 [((1 : ℚ), (0 : Int))] 5 0 none
    (by decide)⟩

/-- **C10.**  The tenant guard excludes an item only when the caller supplied
a non-empty tenant and the item carries a non-empty, different tenant; items
without a tenant are visible to every caller, and a caller without a tenant
sees items of every tenant (on a knowledge base without tenants the search
loop is independent of the supplied tenant). -/
theorem c10_tenant_filter_semantics :
    (∀ qt : Option String, tenantSkip qt none = false ∧ tenantSkip qt (some "") = false) ∧
    (∀ it : Option String, tenantSkip none it = false) ∧
    (∀ qt it : Option String, tenantSkip qt it = true →
      ∃ q i, qt = some q ∧ q ≠ "" ∧ it = some i ∧ i ≠ "" ∧ i ≠ q) ∧
    (∀ (kb : List KBItem) (ms : ℚ) (topK : Nat) (hits : List (ℚ × Int))
        (acc : List MatchResult) (qt : Option String),
      (∀ item ∈ kb, item.tenant_id = none) →
      searchLoop kb ms qt topK hits acc = searchLoop kb ms none topK hits acc) := by
  refine ⟨?_, ?_, ?_, ?_⟩
  · intro qt
    rcases qt with _ | q
    · exact ⟨by decide, by decide⟩
    · have he : String.isEmpty "" = true := by decide
      exact ⟨by simp [tenantSkip, truthyS], by simp [tenantSkip, truthyS, he]⟩
  · intro it; simp [tenantSkip, truthyS]
  · intro qt it hskip
    rcases qt with _ | q
    · simp [tenantSkip, truthyS] at hskip
    · rcases it with _ | i
      · simp [tenantSkip, truthyS] at hskip
      · simp only [tenantSkip, truthyS, Bool.and_eq_true, Bool.not_eq_true',
          beq_eq_false_iff_ne, ne_eq, Option.some.injEq] at hskip
        obtain ⟨⟨hq', hi'⟩, hne⟩ := hskip
        refine ⟨q, i, rfl, ?_, rfl, ?_, hne⟩
        · intro hq; rw [hq] at hq'; exact absurd hq' (by decide)
        · intro hi; rw [hi] at hi'; exact absurd hi' (by decide)
  · intro kb ms topK hits acc qt hall
    induction hits generalizing acc with
    | nil => simp [searchLoop]
    | cons hd tl ih =>
      obtain ⟨score, idx⟩ := hd
      have hitem : ∀ n : Nat, (kb.getD n (KBItem.mk "" "" none)).tenant_id = none := by
        intro n
        by_cases hn : n < kb.length
        · rw [List.getD_eq_getElem _ _ hn]
          exact hall _ (List.getElem_mem hn)
        · rw [List.getD_eq_default _ _ (Nat.le_of_not_lt hn)]
      simp only [searchLoop, hitem]
      split
      · exact ih acc
      · have h1 : tenantSkip qt none = false := by
          rcases qt with _ | q
          · decide
          · simp [tenantSkip, truthyS]
        rw [h1]
        simp only [Bool.false_eq_true, if_false]
        split
        · rfl
        · exact ih _

/-- Witness for C10: on a tenant-free knowledge base, a tenant-scoped search
loop equals the tenant-less one. -/
theorem c10_tenant_filter_semantics_witness :
    searchLoop [KBItem.mk "x" "y" none] 0 (some "t") 5 [((1 : ℚ), (0 : Int))] [] =
      searchLoop [KBItem.mk "x" "y" none] 0 none 5 [((1 : ℚ), (0 : Int))] [] :=
  c10_tenant_filter_semantics.2.2.2 [KBItem.mk "x" "y" none] 0 5 [((1 : ℚ), (0 : Int))] []
    (some "t") (by simp)

/-- `aligned` forces the index and the item list to have the same length. -/
theorem aligned_length {encode : String → List ℚ} {normv : List ℚ → List ℚ}
    {s : MatcherState} (h : aligned encode normv s) :
    s.index.length = s.kb_items.length := by
  rw [h, List.length_map]

/-- `_rebuild_index` always re-establishes alignment (in fact it always
returns the empty state: `_create_empty_index` clears `kb_items` before the
emptiness guard, so the re-embedding branch is dead). -/
theorem rebuild_aligned (encode : String → List ℚ) (normv : List ℚ → List ℚ)
    (s : MatcherState) : aligned encode normv (rebuild_index encode normv s) := by
  simp [rebuild_index, create_empty_index, aligned]

/-- **C6.**  Starting from an aligned state, every matcher operation —
`add_item`, `remove_item`, `_rebuild_index`, `sync_with_database` — leaves the
dense index and the item list index-aligned (the index holds exactly the
normalised embeddings of the items' contents, position by position) and in
particular of equal length. -/
theorem c6_matcher_index_alignment (encode : String → List ℚ) (normv : List ℚ → List ℚ)
    (s : MatcherState) (h : aligned encode normv s) :
    (∀ item_id content tenant,
      aligned encode normv (add_item encode normv s item_id content tenant) ∧
      (add_item encode normv s item_id content tenant).index.length =
        (add_item encode normv s item_id content tenant).kb_items.length) ∧
    (∀ item_id,
      aligned encode normv (remove_item encode normv s item_id) ∧
      (remove_item encode normv s item_id).index.length =
        (remove_item encode normv s item_id).kb_items.length) ∧
    (aligned encode normv (rebuild_index encode normv s) ∧
      (rebuild_index encode normv s).index.length =
        (rebuild_index encode normv s).kb_items.length) ∧
    (∀ items,
      aligned encode normv (sync_with_database encode normv s items) ∧
      (sync_with_database encode normv s items).index.length =
        (sync_with_database encode normv s items).kb_items.length) := by
  refine ⟨?_, ?_, ?_, ?_⟩
  · intro item_id content tenant
    have ha : aligned encode normv (add_item encode normv s item_id content tenant) := by
      simpa [aligned, add_item] using h
    exact ⟨ha, aligned_length ha⟩
  · intro item_id
    have ha : aligned encode normv (remove_item encode normv s item_id) := by
      unfold remove_item
      split
      · exact rebuild_aligned encode normv _
      · exact h
    exact ⟨ha, aligned_length ha⟩
  · exact ⟨rebuild_aligned encode normv s, aligned_length (rebuild_aligned encode normv s)⟩
  · intro items
    have ha : aligned encode normv (sync_with_database encode normv s items) :=
      rebuild_aligned encode normv _
    exact ⟨ha, aligned_length ha⟩

/-- Witness for C6 at a concrete state and a concrete embedding oracle. -/
theorem c6_matcher_index_alignment_witness :
    aligned (fun c => [((c.length : ℕ) : ℚ)]) (fun v => v)
      (add_item (fun c => [((c.length : ℕ) : ℚ)]) (fun v => v)
        (MatcherState.mk [] [] []) "id1" "abc" none) :=
  ((c6_matcher_index_alignment (fun c => [((c.length : ℕ) : ℚ)]) (fun v => v)
    (MatcherState.mk [] [] []) rfl).1 "id1" "abc" none).1

/-- `range'` is strictly increasing. -/
theorem chain'_lt_range' (s n : Nat) : List.Chain' (· < ·) (List.range' s n) := by
  induction n generalizing s with
  | zero => simp
  | succ n ih =>
    rw [List.range'_succ]
    rcases n with _ | m
    · simp
    · rw [List.chain'_cons']
      refine ⟨?_, ih (s + 1)⟩
      intro y hy
      rw [List.range'_succ] at hy
      simp only [List.head?_cons, Option.mem_some_iff] at hy
      omega

/-- The rule-based loop appends orders `order, order+1, ...` consecutively. -/
theorem ruleLoop_orders (pages : Option (List PageD)) :
    ∀ (sentences : List (List Char)) (seen : List (List Char)) (order : Nat)
      (acc : List ExtractedRequirement),
      ∃ m, (ruleLoop pages sentences seen order acc).map ExtractedRequirement.order =
        acc.map ExtractedRequirement.order ++ List.range' order m := by
  intro sentences
  induction sentences with
  | nil =>
    intro seen order acc
    exact ⟨0, by simp [ruleLoop]⟩
  | cons s0 rest ih =>
    intro seen order acc
    simp only [ruleLoop]
    split
    · exact ih seen order acc
    · split
      · exact ih seen order acc
      · split
        · refine ⟨1, ?_⟩
          simp only [List.map_append, List.map_cons, List.map_nil]
          rfl
        · obtain ⟨m, hm⟩ := ih (seen ++ [lowerL (stripL s0)]) (order + 1)
            (acc ++ [ExtractedRequirement.mk (String.mk (stripL s0))
              (categorize (stripL s0)).1 (categorize (stripL s0)).2.2
              (categorize (stripL s0)).2.1 (find_page_number (stripL s0) pages) order])
          refine ⟨m + 1, ?_⟩
          rw [hm]
          simp only [List.map_append, List.map_cons, List.map_nil]
          rw [List.append_assoc, List.range'_succ]
          rfl

/-- The LLM-path loop keeps `enumerate`'s indices, which strictly increase
and are bounded below by the starting index. -/
theorem extractLlmGo_orders (pages : Option (List PageD)) :
    ∀ (items : List LlmItem) (i : Nat) (l : List ExtractedRequirement),
      extractLlmGo pages i items = some l →
      List.Chain' (· < ·) (l.map ExtractedRequirement.order) ∧
      ∀ o ∈ l.map ExtractedRequirement.order, i ≤ o := by
  intro items
  induction items with
  | nil =>
    intro i l hl
    simp only [extractLlmGo, Option.some.injEq] at hl
    subst hl
    simp
  | cons it rest ih =>
    intro i l hl
    simp only [extractLlmGo] at hl
    split at hl
    · obtain ⟨hc, hge⟩ := ih (i + 1) l hl
      exact ⟨hc, fun o ho => Nat.le_of_succ_le (hge o ho)⟩
    · rcases hcat : categoryOfString it.category with _ | cat
      · rw [hcat] at hl; exact absurd hl (by simp)
      · rw [hcat] at hl
        rcases hrec : extractLlmGo pages (i + 1) rest with _ | l2
        · rw [hrec] at hl; exact absurd hl (by simp)
        · rw [hrec] at hl
          simp only [Option.some.injEq] at hl
          subst hl
          obtain ⟨hc, hge⟩ := ih (i + 1) l2 hrec
          constructor
          · simp only [List.map_cons]
            rw [List.chain'_cons']
            refine ⟨?_, hc⟩
            intro y hy
            have hmem : y ∈ l2.map ExtractedRequirement.order := List.mem_of_mem_head? hy
            have := hge y hmem
            omega
          · intro o ho
            simp only [List.map_cons, List.mem_cons] at ho
            rcases ho with ho | ho
            · omega
            · have := hge o ho; omega

/-- **C7** (amended).  The `order` fields of `extract`'s result are strictly
increasing on both paths; on the rule-based path they are exactly
`0, 1, ..., n-1`.  (On the LLM path they need not start at 0 — see the
counterexample.) -/
theorem c7_orders (lang : String) (hasKey : Bool) (items : List LlmItem)
    (pages : Option (List PageD)) (text : String) :
    List.Chain' (· < ·)
      ((extract lang hasKey items pages text).map ExtractedRequirement.order) ∧
    (extract "en" hasKey items pages text).map ExtractedRequirement.order =
      List.range (extract "en" hasKey items pages text).length := by
  have hllm : ∀ its, List.Chain' (· < ·)
      ((extract_llm its pages).map ExtractedRequirement.order) := by
    intro its
    unfold extract_llm
    rcases hgo : extractLlmGo pages 0 its with _ | l
    · simp
    · simpa using (extractLlmGo_orders pages its 0 l hgo).1
  have hrule : ∀ t : String,
      (extract_rule pages t).map ExtractedRequirement.order =
        List.range (extract_rule pages t).length := by
    intro t
    unfold extract_rule
    obtain ⟨m, hm⟩ := ruleLoop_orders pages (split_sentences t.toList) [] 0 []
    simp only [List.map_nil, List.nil_append] at hm
    have hlen : (ruleLoop pages (split_sentences t.toList) [] 0 []).length = m := by
      have h2 := congrArg List.length hm
      simpa using h2
    rw [hm, hlen, List.range_eq_range']
  constructor
  · unfold extract
    split
    · exact hllm items
    · simp only []
      split
      · exact hllm items
      · rw [hrule text, List.range_eq_range']
        exact chain'_lt_range' 0 _
  · unfold extract
    rw [if_neg (by simp : ¬((decide (("en" : String) ≠ "en") && hasKey) = true))]
    simp only []
    split
    · rename_i hcond
      simp only [Bool.and_eq_true, decide_eq_true_eq] at hcond
      exact absurd hcond.1.2 (by decide)
    · exact hrule text

set_option maxRecDepth 40000 in
/-- **C7** counterexample to the claim as stated: when the LLM returns a
leading item with empty text, the first accepted requirement keeps
`enumerate`'s index 1, so the orders do not start at 0. -/
theorem c7_llm_orders_can_skip_zero :
    (extract "fr" true
      [LlmItem.mk "" "TECHNICAL" none,
       LlmItem.mk "The vendor must provide support" "TECHNICAL" none] none
      "quelque texte").map ExtractedRequirement.order = [1] ∧
    (extract "fr" true
      [LlmItem.mk "" "TECHNICAL" none,
       LlmItem.mk "The vendor must provide support" "TECHNICAL" none] none
      "quelque texte") ≠ [] ∧
    ¬ ((extract "fr" true
      [LlmItem.mk "" "TECHNICAL" none,
       LlmItem.mk "The vendor must provide support" "TECHNICAL" none] none
      "quelque texte").head?.map ExtractedRequirement.order = some 0) := by
  with_unfolding_all decide

end TenderApi
